import Mathlib

/-!
Shallow embedding of `src/claude_state.rs` from the `claudeye` repository:
a heuristic classifier that maps a terminal capture (a string) to the
activity state of a Claude Code session.

Captures are modelled as `List Char` (one Rust `char` per entry, exactly the
code points Rust iterates over).  Rust regexes used through `is_match` are
modelled by a small Brzozowski-derivative engine (`Re`) together with search
drivers for the three anchoring modes that occur in the source:
text-start (`^` without `(?m)`), line-start (`(?m)^`), and unanchored search.
-/

namespace Claudeye

/-- Unicode White_Space, the set matched by Rust `char::is_whitespace` (used
by `str::trim`) and by the `\s` class of the `regex` crate (Unicode mode). -/
def isWsChar (c : Char) : Bool :=
  c.toNat = 0x09 || c.toNat = 0x0A || c.toNat = 0x0B || c.toNat = 0x0C ||
  c.toNat = 0x0D || c.toNat = 0x20 || c.toNat = 0x85 || c.toNat = 0xA0 ||
  c.toNat = 0x1680 || (0x2000 ≤ c.toNat && c.toNat ≤ 0x200A) ||
  c.toNat = 0x2028 || c.toNat = 0x2029 || c.toNat = 0x202F ||
  c.toNat = 0x205F || c.toNat = 0x3000

/-- Rust `str::trim`: drop leading and trailing whitespace characters. -/
def trimL (l : List Char) : List Char :=
  ((l.dropWhile isWsChar).reverse.dropWhile isWsChar).reverse

/-- Bool test that `p` is a prefix of `s` (Rust `str::starts_with`). -/
def startsWithL : List Char → List Char → Bool
  | _, [] => true
  | [], _ :: _ => false
  | c :: cs, d :: ds => c == d && startsWithL cs ds

/-- Bool test that `p` occurs as a contiguous substring of `h`
(Rust `str::contains` with a literal pattern). -/
def containsSubstring (h p : List Char) : Bool :=
  startsWithL h p ||
    match h with
    | [] => false
    | _ :: t => containsSubstring t p

/-- Rust `str::split('\n')`: always yields at least one piece; a trailing
newline yields a trailing empty piece. -/
def splitNewline : List Char → List (List Char)
  | [] => [[]]
  | c :: cs =>
    if c == '\n' then [] :: splitNewline cs
    else
      match splitNewline cs with
      | [] => [[c]]
      | l :: ls => (c :: l) :: ls

/-- Rust `Vec::join("\n")` on the filtered lines. -/
def joinNL : List (List Char) → List Char
  | [] => []
  | [l] => l
  | l :: l2 :: ls => l ++ '\n' :: joinNL (l2 :: ls)

/-- Line made only of Box Drawing characters U+2500..U+257F; the empty string
counts as a separator (`is_separator_line` in the source). -/
def is_separator_line (line : List Char) : Bool :=
  line.all fun c => 0x2500 ≤ c.toNat && c.toNat ≤ 0x257F

/-- Maximum number of trailing lines used for state detection
(`LAST_LINES_COUNT` in the source). -/
def LAST_LINES_COUNT : Nat := 30

/-- Backward collection loop of `last_non_empty_lines`: walk the reversed
line list, skip blank and separator lines, stop after `n` collected. -/
def collectRev : List (List Char) → Nat → List (List Char)
  | _, 0 => []
  | [], _ + 1 => []
  | line :: rest, n + 1 =>
    if (trimL line).isEmpty then collectRev rest (n + 1)
    else if is_separator_line (trimL line) then collectRev rest (n + 1)
    else line :: collectRev rest n

/-- Last at most `n` non-blank, non-separator lines, in original order
(`last_non_empty_lines` in the source). -/
def last_non_empty_lines (lines : List (List Char)) (n : Nat) :
    List (List Char) :=
  (collectRev lines.reverse n).reverse

/-- The waiting-dialog literal substrings (`WAITING_PATTERNS` in the source,
in source order). -/
def WAITING_PATTERNS : List (List Char) :=
  [ "Yes, allow once".data
  , "Yes, allow always".data
  , "Allow once".data
  , "Allow always".data
  , "❯ Yes".data
  , "❯ No".data
  , "Do you trust".data
  , "Run this command?".data
  , "Allow this MCP server".data
  , "Continue?".data
  , "Proceed?".data
  , "Do you want to proceed?".data
  , "(Y/n)".data
  , "(y/N)".data
  , "[Y/n]".data
  , "[y/N]".data ]

/-! Regular-expression engine (Brzozowski derivatives).  `pred` carries a
decidable character class; `void` is the empty language. -/

inductive Re where
  | void : Re
  | eps : Re
  | pred : (Char → Bool) → Re
  | cat : Re → Re → Re
  | alt : Re → Re → Re
  | star : Re → Re

namespace Re

/-- Smart concatenation, simplifying the `void` and `eps` units. -/
def catS : Re → Re → Re
  | void, _ => void
  | _, void => void
  | eps, r => r
  | r, eps => r
  | r1, r2 => cat r1 r2

/-- Smart alternation, simplifying the `void` unit. -/
def altS : Re → Re → Re
  | void, r => r
  | r, void => r
  | r1, r2 => alt r1 r2

/-- Does the language of `r` contain the empty word? -/
def nullable : Re → Bool
  | void => false
  | eps => true
  | pred _ => false
  | cat r1 r2 => nullable r1 && nullable r2
  | alt r1 r2 => nullable r1 || nullable r2
  | star _ => true

/-- Brzozowski derivative of `r` by the character `c`. -/
def deriv : Re → Char → Re
  | void, _ => void
  | eps, _ => void
  | pred p, c => if p c then eps else void
  | cat r1 r2, c =>
    if nullable r1 then altS (catS (deriv r1 c) r2) (deriv r2 c)
    else catS (deriv r1 c) r2
  | alt r1 r2, c => altS (deriv r1 c) (deriv r2 c)
  | star r, c => catS (deriv r c) (star r)

/-- Single literal character. -/
def chr (c : Char) : Re := pred fun d => d == c

/-- Literal word. -/
def lit (s : List Char) : Re := s.foldr (fun c r => cat (chr c) r) eps

/-- One or more repetitions. -/
def plus (r : Re) : Re := cat r (star r)

/-- Zero or one repetition. -/
def opt (r : Re) : Re := alt eps r

end Re

/-- Does `r` match some prefix of `s` (the match may be empty)? -/
def existsPrefixMatch (r : Re) : List Char → Bool
  | [] => r.nullable
  | c :: cs => r.nullable || existsPrefixMatch (r.deriv c) cs

/-- Does `r` match all of `s`? -/
def fullMatch (r : Re) : List Char → Bool
  | [] => r.nullable
  | c :: cs => fullMatch (r.deriv c) cs

/-- Unanchored `is_match`: `r` matches starting at some position of `s`. -/
def searchAnywhere (r : Re) : List Char → Bool
  | [] => r.nullable
  | c :: cs => existsPrefixMatch r (c :: cs) || searchAnywhere r cs

/-- Match of `r` starting just after some newline of `s`. -/
def afterNL (r : Re) : List Char → Bool
  | [] => false
  | c :: cs => (c == '\n' && existsPrefixMatch r cs) || afterNL r cs

/-- Multiline-anchored `is_match` for a pattern beginning with `(?m)^`:
`r` matches at the start of the text or right after a newline. -/
def searchLineStarts (r : Re) (s : List Char) : Bool :=
  existsPrefixMatch r s || afterNL r s

/-- Does `r` match some suffix of `s` in full (a match ending exactly at the
end of the text)?  Used to model an end-of-text `$`. -/
def existsSuffixFullMatch (r : Re) : List Char → Bool
  | [] => r.nullable
  | c :: cs => fullMatch r (c :: cs) || existsSuffixFullMatch r cs

/-! Character classes of the source regexes. -/

/-- The activity lead symbols of the `[✢✽✶✻·]` class. -/
def isLeadSym (c : Char) : Bool :=
  c == '✢' || c == '✽' || c == '✶' || c == '✻' || c == '·'

/-- Regex `.`: any character except newline. -/
def isAnyNoNL (c : Char) : Bool := !(c == '\n')

/-- Regex `\d`.  Rust's `regex` crate matches every Unicode decimal digit
(category Nd); the classifier only ever meets the ASCII digits of the UI
timer/menu lines, which is the subset modelled here. -/
def isDigitCh (c : Char) : Bool := c.isDigit

/-- Regex `[smh]`: elapsed-time unit. -/
def isTimeUnit (c : Char) : Bool := c == 's' || c == 'm' || c == 'h'

/-- Regex `[^)]`: any character other than a closing parenthesis. -/
def isNotRParen (c : Char) : Bool := !(c == ')')

/-! The compiled patterns of the source (`OnceLock<Regex>` statics are
modelled as plain constants) and their `is_match` drivers. -/

/-- Elapsed-time token group `(?:\d+[smh]\s*)+`. -/
def timeGroupRe : Re :=
  Re.plus (Re.cat (Re.plus (Re.pred isDigitCh))
    (Re.cat (Re.pred isTimeUnit) (Re.star (Re.pred isWsChar))))

/-- Shared prefix `[✢✽✶✻·]\s+.+?…?` of the running-status patterns. -/
def activityHeadRe : Re :=
  Re.cat (Re.pred isLeadSym)
    (Re.cat (Re.plus (Re.pred isWsChar))
      (Re.cat (Re.plus (Re.pred isAnyNoNL)) (Re.opt (Re.chr '…'))))

/-- Pattern `(?m)^[✢✽✶✻·]\s+.+?…?\s*\([^)]*·\s*((?:\d+[smh]\s*)+)`:
running status with the timer after a middle dot (`running_pattern`). -/
def running_pattern : Re :=
  Re.cat activityHeadRe
    (Re.cat (Re.star (Re.pred isWsChar))
      (Re.cat (Re.chr '(')
        (Re.cat (Re.star (Re.pred isNotRParen))
          (Re.cat (Re.chr '·')
            (Re.cat (Re.star (Re.pred isWsChar)) timeGroupRe)))))

/-- Pattern `(?m)^[✢✽✶✻·]\s+.+?…?\s*\(((?:\d+[smh]\s*)+)\s*·`:
running status with the timer first inside the parentheses
(`running_pattern_time_first`). -/
def running_pattern_time_first : Re :=
  Re.cat activityHeadRe
    (Re.cat (Re.star (Re.pred isWsChar))
      (Re.cat (Re.chr '(')
        (Re.cat timeGroupRe
          (Re.cat (Re.star (Re.pred isWsChar)) (Re.chr '·')))))

/-- Pattern `(?m)^[✢✽✶✻·]\s+.+?…?\s*\((esc|ctrl\+c) to interrupt`:
untimed interrupt hint (`running_fallback_pattern`). -/
def running_fallback_pattern : Re :=
  Re.cat activityHeadRe
    (Re.cat (Re.star (Re.pred isWsChar))
      (Re.cat (Re.chr '(')
        (Re.cat (Re.alt (Re.lit "esc".data) (Re.lit "ctrl+c".data))
          (Re.lit " to interrupt".data))))

/-- Core `·\s*esc to interrupt` of `esc_to_interrupt_end_pattern`. -/
def escEndCoreRe : Re :=
  Re.cat (Re.chr '·')
    (Re.cat (Re.star (Re.pred isWsChar)) (Re.lit "esc to interrupt".data))

/-- Pattern `(?m)·\s*esc to interrupt(\s|·|$)` (`esc_to_interrupt_end_pattern`).
The trailing group is `\s`, `·`, or end-of-line `$`; under `(?m)` the
before-a-newline case of `$` is already covered by the `\s` branch, so the
only extra case is a match ending exactly at the end of the text. -/
def esc_to_interrupt_end_matches (s : List Char) : Bool :=
  searchAnywhere
    (Re.cat escEndCoreRe (Re.alt (Re.pred isWsChar) (Re.chr '·'))) s ||
  existsSuffixFullMatch escEndCoreRe s

/-- Pattern `(?m)^[✢✽✶✻·]\s+.+?…`: generic in-progress status line
(`running_generic_pattern`).  Note `.+?…` makes the ellipsis mandatory. -/
def running_generic_pattern : Re :=
  Re.cat (Re.pred isLeadSym)
    (Re.cat (Re.plus (Re.pred isWsChar))
      (Re.cat (Re.plus (Re.pred isAnyNoNL)) (Re.chr '…')))

/-- Pattern `❯\s+\d+\.`: numbered selection menu (`selection_menu_pattern`). -/
def selection_menu_pattern : Re :=
  Re.cat (Re.chr '❯')
    (Re.cat (Re.plus (Re.pred isWsChar))
      (Re.cat (Re.plus (Re.pred isDigitCh)) (Re.chr '.')))

/-- Pattern `^\s*\d+\s+files?\s+[+\-]` (no `(?m)`, so `^` is text start):
file-change summary footer (`file_changes_pattern`). -/
def file_changes_pattern : Re :=
  Re.cat (Re.star (Re.pred isWsChar))
    (Re.cat (Re.plus (Re.pred isDigitCh))
      (Re.cat (Re.plus (Re.pred isWsChar))
        (Re.cat (Re.lit "file".data)
          (Re.cat (Re.opt (Re.chr 's'))
            (Re.cat (Re.plus (Re.pred isWsChar))
              (Re.alt (Re.chr '+') (Re.chr '-')))))))

/-- Pattern `(?m)^\s*❯`: idle fallback (`idle_pattern`). -/
def idle_pattern : Re :=
  Re.cat (Re.star (Re.pred isWsChar)) (Re.chr '❯')

/-- Pattern `Enter to select.*↑/↓ to navigate.*Esc to cancel`
(`interview_pattern`). -/
def interview_pattern : Re :=
  Re.cat (Re.lit "Enter to select".data)
    (Re.cat (Re.star (Re.pred isAnyNoNL))
      (Re.cat (Re.lit "↑/↓ to navigate".data)
        (Re.cat (Re.star (Re.pred isAnyNoNL))
          (Re.lit "Esc to cancel".data))))

/-- `running_pattern().is_match(s)`. -/
def running_pattern_matches (s : List Char) : Bool :=
  searchLineStarts running_pattern s

/-- `running_pattern_time_first().is_match(s)`. -/
def running_pattern_time_first_matches (s : List Char) : Bool :=
  searchLineStarts running_pattern_time_first s

/-- `running_fallback_pattern().is_match(s)`. -/
def running_fallback_pattern_matches (s : List Char) : Bool :=
  searchLineStarts running_fallback_pattern s

/-- `running_generic_pattern().is_match(s)`. -/
def running_generic_pattern_matches (s : List Char) : Bool :=
  searchLineStarts running_generic_pattern s

/-- `selection_menu_pattern().is_match(s)`. -/
def selection_menu_pattern_matches (s : List Char) : Bool :=
  searchAnywhere selection_menu_pattern s

/-- `file_changes_pattern().is_match(s)`. -/
def file_changes_pattern_matches (s : List Char) : Bool :=
  existsPrefixMatch file_changes_pattern s

/-- `idle_pattern().is_match(s)`. -/
def idle_pattern_matches (s : List Char) : Bool :=
  searchLineStarts idle_pattern s

/-- `interview_pattern().is_match(s)`. -/
def interview_pattern_matches (s : List Char) : Bool :=
  searchAnywhere interview_pattern s

/-! The prompt-line analyzer (`is_claude_prompt_line`). -/

/-- Body of the backward scan of `is_claude_prompt_line`, on the reversed
line list.  Skips blank, separator and footer lines; judges the first
substantive line. -/
def promptLoop : List (List Char) → Bool
  | [] => false
  | line :: rest =>
    if (trimL line).isEmpty then promptLoop rest
    else if is_separator_line (trimL line) then promptLoop rest
    else if containsSubstring (trimL line) "? for shortcuts".data ||
        containsSubstring (trimL line) "ctrl+".data ||
        containsSubstring (trimL line) "shift+".data ||
        file_changes_pattern_matches (trimL line) then promptLoop rest
    else if startsWithL (trimL line) ['❯'] then
      if selection_menu_pattern_matches (trimL line) then false
      else if WAITING_PATTERNS.any
          (fun p => startsWithL p ['❯'] && trimL line == p) then false
      else true
    else false

/-- Is the last substantive line (blank, separator and footer lines skipped)
a `❯` input prompt?  (`is_claude_prompt_line` in the source.) -/
def is_claude_prompt_line (lines : List (List Char)) : Bool :=
  promptLoop lines.reverse

/-- The last substantive line itself, scanning backward with the same skip
rules as `is_claude_prompt_line` (helper for stating claims). -/
def lastSubstantiveRev : List (List Char) → Option (List Char)
  | [] => none
  | line :: rest =>
    if (trimL line).isEmpty then lastSubstantiveRev rest
    else if is_separator_line (trimL line) then lastSubstantiveRev rest
    else if containsSubstring (trimL line) "? for shortcuts".data ||
        containsSubstring (trimL line) "ctrl+".data ||
        containsSubstring (trimL line) "shift+".data ||
        file_changes_pattern_matches (trimL line) then lastSubstantiveRev rest
    else some line

/-- Last substantive line of a line list, in forward order. -/
def lastSubstantive (lines : List (List Char)) : Option (List Char) :=
  lastSubstantiveRev lines.reverse

/-- Judgment `is_claude_prompt_line` applies to the trimmed last substantive
line: a `❯`-led line that is neither a numbered selection menu nor an exact
`❯`-led waiting phrase. -/
def promptJudge (t : List Char) : Bool :=
  if startsWithL t ['❯'] then
    if selection_menu_pattern_matches t then false
    else if WAITING_PATTERNS.any
        (fun p => startsWithL p ['❯'] && t == p) then false
    else true
  else false

/-! The main classifier (`detect_state`). -/

/-- The classifier states (`ClaudeState` in the source).  `WaitingForAnswer`
and `NotRunning` exist for the UI but are never produced by `detect_state`. -/
inductive ClaudeState where
  | Working
  | WaitingForApproval
  | WaitingForAnswer
  | Idle
  | NotRunning
deriving DecidableEq, Repr

/-- The raw line split of a capture (`lines` in `detect_state`). -/
def captureLines (content : List Char) : List (List Char) :=
  splitNewline content

/-- The meaningful window (`last_lines` in `detect_state`). -/
def windowOf (content : List Char) : List (List Char) :=
  last_non_empty_lines (captureLines content) LAST_LINES_COUNT

/-- The joined window text (`combined` in `detect_state`). -/
def combinedOf (content : List Char) : List Char :=
  joinNL (windowOf content)

/-- Port of `detect_state`: classify a capture-pane output string. -/
def detect_state (content : List Char) : ClaudeState :=
  if running_pattern_matches (combinedOf content) then ClaudeState.Working
  else if running_pattern_time_first_matches (combinedOf content) then
    ClaudeState.Working
  else if running_fallback_pattern_matches (combinedOf content) then
    ClaudeState.Working
  else if esc_to_interrupt_end_matches (combinedOf content) then
    ClaudeState.Working
  else if running_generic_pattern_matches (combinedOf content) then
    ClaudeState.Working
  else if is_claude_prompt_line (captureLines content) then ClaudeState.Idle
  else if WAITING_PATTERNS.any
      (fun p => containsSubstring (combinedOf content) p) then
    ClaudeState.WaitingForApproval
  else if interview_pattern_matches (combinedOf content) then
    ClaudeState.WaitingForApproval
  else if selection_menu_pattern_matches (combinedOf content) then
    ClaudeState.WaitingForApproval
  else if idle_pattern_matches (combinedOf content) then ClaudeState.Idle
  else ClaudeState.Idle

/-- The five Working rules of the classifier, in source order. -/
def anyWorkingMatches (s : List Char) : Bool :=
  running_pattern_matches s || running_pattern_time_first_matches s ||
  running_fallback_pattern_matches s || esc_to_interrupt_end_matches s ||
  running_generic_pattern_matches s

/-- All classification rules other than the final default: the five Working
rules, the prompt-line check, the waiting catalogue, the interview pattern,
the numbered selection menu and the idle fallback. -/
def anyRuleMatches (content : List Char) : Bool :=
  anyWorkingMatches (combinedOf content) ||
  is_claude_prompt_line (captureLines content) ||
  WAITING_PATTERNS.any (fun p => containsSubstring (combinedOf content) p) ||
  interview_pattern_matches (combinedOf content) ||
  selection_menu_pattern_matches (combinedOf content) ||
  idle_pattern_matches (combinedOf content)

/-! Definitions supporting the claim statements. -/

/-- The keep test actually applied by `last_non_empty_lines`: the trimmed
line is non-empty and not a separator. -/
def keepLine (l : List Char) : Bool :=
  !(trimL l).isEmpty && !(is_separator_line (trimL l))

/-- The last at most `n` entries of a list, in original order. -/
def takeLastN (n : Nat) (ls : List (List Char)) : List (List Char) :=
  (ls.reverse.take n).reverse

/-- The Line Filter contract exactly as the C4 claim words it: keep lines
that are neither whitespace-only nor separator lines, where the separator
test inspects the raw, untrimmed line. -/
def lineFilterSpecC4 (lines : List (List Char)) (n : Nat) :
    List (List Char) :=
  takeLastN n (lines.filter fun l => !(l.all isWsChar) && !(is_separator_line l))

/-- The Working status line of claim C5. -/
def claudingLine : String :=
  "✢ Clauding… (esc to interrupt · 1m 45s · ↓ 1.2k tokens)"

/-- A capture containing `claudingLine` at line start, followed by thirty
further lines that push it out of the meaningful window. -/
def c5CounterInput : String :=
  claudingLine ++ String.join (List.replicate 30 "\nx")

/-- A capture whose last substantive line is exactly "❯ No", followed by
thirty footer lines that push it out of the meaningful window. -/
def c6CounterInput : String :=
  "❯ No" ++ String.join (List.replicate 30 "\nctrl+")

/-- The capture of the regression test
`idle_with_vim_mode_and_stale_waiting_pattern_in_history`: a stale
"Proceed?" in history, a live "❯ " prompt, and a model/context status
footer line below it. -/
def c1FailingInput : String :=
  "❯ Proceed?\n  ⎿  Interrupted · What should Claude do instead?\n\n───────────────────────────────────────────────────────────────────────────────────────────────────────────────────────\n❯ \n───────────────────────────────────────────────────────────────────────────────────────────────────────────────────────\n  [Opus 4.6] Context: 0%"

/-! Helper lemmas about the regex engine. -/

theorem existsPrefixMatch_of_nullable {r : Re} (h : r.nullable = true) :
    ∀ s, existsPrefixMatch r s = true := by
  intro s
  cases s with
  | nil => simpa [existsPrefixMatch] using h
  | cons c cs => simp [existsPrefixMatch, h]

theorem existsPrefixMatch_append (v : List Char) :
    ∀ (r : Re) (s : List Char), existsPrefixMatch r s = true →
      existsPrefixMatch r (s ++ v) = true := by
  intro r s
  induction s generalizing r with
  | nil =>
    intro h
    exact existsPrefixMatch_of_nullable (by simpa [existsPrefixMatch] using h) v
  | cons c cs ih =>
    intro h
    simp only [existsPrefixMatch, Bool.or_eq_true] at h
    simp only [List.cons_append, existsPrefixMatch, Bool.or_eq_true]
    rcases h with h | h
    · exact Or.inl h
    · exact Or.inr (ih _ h)

theorem searchAnywhere_of_prefixMatch (r : Re) :
    ∀ s, existsPrefixMatch r s = true → searchAnywhere r s = true := by
  intro s h
  cases s with
  | nil => simpa [existsPrefixMatch, searchAnywhere] using h
  | cons c cs => simp [searchAnywhere, h]

theorem searchAnywhere_append_left (r : Re) (x y : List Char)
    (h : searchAnywhere r y = true) : searchAnywhere r (x ++ y) = true := by
  induction x with
  | nil => simpa using h
  | cons a x ih =>
    simp only [List.cons_append, searchAnywhere, Bool.or_eq_true]
    exact Or.inr ih

theorem searchAnywhere_append_right (r : Re) (v : List Char) :
    ∀ (s : List Char), searchAnywhere r s = true →
      searchAnywhere r (s ++ v) = true := by
  intro s
  induction s with
  | nil =>
    intro h
    exact searchAnywhere_of_prefixMatch r v
      (existsPrefixMatch_of_nullable (by simpa [searchAnywhere] using h) v)
  | cons c cs ih =>
    intro h
    simp only [searchAnywhere, Bool.or_eq_true] at h
    simp only [List.cons_append, searchAnywhere, Bool.or_eq_true]
    rcases h with h | h
    · exact Or.inl (by simpa using existsPrefixMatch_append v r (c :: cs) h)
    · exact Or.inr (ih h)

theorem searchAnywhere_mono {r : Re} {n h : List Char} (hinf : n <:+: h)
    (hm : searchAnywhere r n = true) : searchAnywhere r h = true := by
  obtain ⟨u, v, rfl⟩ := hinf
  rw [List.append_assoc]
  exact searchAnywhere_append_left r u (n ++ v)
    (searchAnywhere_append_right r v n hm)

theorem startsWithL_self_append (p v : List Char) :
    startsWithL (p ++ v) p = true := by
  induction p with
  | nil => simp [startsWithL]
  | cons c cs ih => simp [startsWithL, ih]

theorem containsSubstring_mono {p h : List Char} (hinf : p <:+: h) :
    containsSubstring h p = true := by
  obtain ⟨u, v, rfl⟩ := hinf
  induction u with
  | nil =>
    unfold containsSubstring
    simp [startsWithL_self_append]
  | cons a u ih =>
    unfold containsSubstring
    simp only [Bool.or_eq_true]
    exact Or.inr (by simpa using ih)

theorem afterNL_newline_prefixMatch {r : Re} (u0 s : List Char)
    (hm : existsPrefixMatch r s = true) :
    afterNL r ((u0 ++ ['\n']) ++ s) = true := by
  induction u0 with
  | nil => simp [afterNL, hm]
  | cons a u0 ih =>
    simp only [List.cons_append, afterNL, Bool.or_eq_true]
    exact Or.inr (by simpa using ih)

theorem searchLineStarts_at {r : Re} (u s : List Char)
    (hu : u = [] ∨ ∃ u0, u = u0 ++ ['\n'])
    (hm : existsPrefixMatch r s = true) :
    searchLineStarts r (u ++ s) = true := by
  rcases hu with rfl | ⟨u0, rfl⟩
  · simp only [List.nil_append, searchLineStarts, Bool.or_eq_true]
    exact Or.inl hm
  · simp only [searchLineStarts, Bool.or_eq_true]
    exact Or.inr (afterNL_newline_prefixMatch u0 s hm)

/-! Helper lemmas about line joining and trimming. -/

theorem joinNL_mem_decomp {L : List Char} :
    ∀ {w : List (List Char)}, L ∈ w →
      ∃ u v, joinNL w = u ++ (L ++ v) ∧ (u = [] ∨ ∃ u0, u = u0 ++ ['\n']) := by
  intro w
  induction w with
  | nil => intro h; simp at h
  | cons a rest ih =>
    intro h
    rcases List.mem_cons.mp h with rfl | hmem
    · cases rest with
      | nil => exact ⟨[], [], by simp [joinNL], Or.inl rfl⟩
      | cons b rs => exact ⟨[], '\n' :: joinNL (b :: rs), by simp [joinNL], Or.inl rfl⟩
    · obtain ⟨u, v, hj, hu⟩ := ih hmem
      obtain ⟨b, rs, rfl⟩ :=
        List.exists_cons_of_ne_nil (List.ne_nil_of_mem hmem)
      refine ⟨a ++ '\n' :: u, v, ?_, ?_⟩
      · simp [joinNL, hj]
      · rcases hu with rfl | ⟨u0, rfl⟩
        · exact Or.inr ⟨a, by simp⟩
        · exact Or.inr ⟨a ++ '\n' :: u0, by simp⟩

theorem mem_infix_joinNL {L : List Char} {w : List (List Char)} (h : L ∈ w) :
    L <:+: joinNL w := by
  obtain ⟨u, v, hj, _⟩ := joinNL_mem_decomp h
  exact ⟨u, v, by simp [hj]⟩

theorem trimL_infix_raw (l : List Char) : trimL l <:+: l := by
  have h1 : l.dropWhile isWsChar <:+ l := List.dropWhile_suffix _
  have h2 : trimL l <+: l.dropWhile isWsChar := by
    have h3 : (l.dropWhile isWsChar).reverse.dropWhile isWsChar <:+
        (l.dropWhile isWsChar).reverse := List.dropWhile_suffix _
    obtain ⟨t, ht⟩ := h3
    refine ⟨t.reverse, ?_⟩
    have := congrArg List.reverse ht
    simpa [trimL] using this
  exact h2.isInfix.trans h1.isInfix

/-! The prompt-line analyzer factors through the last substantive line. -/

theorem promptLoop_eq_judge :
    ∀ rl : List (List Char),
      promptLoop rl = (match lastSubstantiveRev rl with
        | none => false
        | some l => promptJudge (trimL l)) := by
  intro rl
  induction rl with
  | nil => rfl
  | cons line rest ih =>
    by_cases h1 : (trimL line).isEmpty
    · simp [promptLoop, lastSubstantiveRev, h1, ih]
    · by_cases h2 : is_separator_line (trimL line)
      · simp [promptLoop, lastSubstantiveRev, h1, h2, ih]
      · by_cases h3 : (containsSubstring (trimL line) "? for shortcuts".data ||
            containsSubstring (trimL line) "ctrl+".data ||
            containsSubstring (trimL line) "shift+".data ||
            file_changes_pattern_matches (trimL line)) = true
        · simp [promptLoop, lastSubstantiveRev, h1, h2, h3, ih]
        · simp only [Bool.or_eq_true] at h3
          push_neg at h3
          simp [promptLoop, lastSubstantiveRev, promptJudge, h1, h2, h3.1, h3.2]

theorem is_claude_prompt_line_eq_judge (lines : List (List Char)) :
    is_claude_prompt_line lines = (match lastSubstantive lines with
      | none => false
      | some l => promptJudge (trimL l)) :=
  promptLoop_eq_judge lines.reverse

/-! Structure of the line filter. -/

theorem collectRev_eq_filter_take :
    ∀ (rl : List (List Char)) (n : Nat),
      collectRev rl n = (rl.filter keepLine).take n := by
  intro rl
  induction rl with
  | nil => intro n; cases n <;> simp [collectRev]
  | cons line rest ih =>
    intro n
    cases n with
    | zero => simp [collectRev]
    | succ m =>
      by_cases h1 : (trimL line).isEmpty
      · have hk : keepLine line = false := by simp [keepLine, h1]
        simp [collectRev, h1, hk, ih]
      · by_cases h2 : is_separator_line (trimL line)
        · have hk : keepLine line = false := by simp [keepLine, h2]
          simp [collectRev, h1, h2, hk, ih]
        · have hk : keepLine line = true := by
            simp [keepLine, h1, h2]
          simp [collectRev, h1, h2, hk, ih]

theorem last_non_empty_lines_eq_filter (lines : List (List Char)) (n : Nat) :
    last_non_empty_lines lines n = takeLastN n (lines.filter keepLine) := by
  unfold last_non_empty_lines takeLastN
  rw [collectRev_eq_filter_take, List.filter_reverse]

/-! Skipping a (trimmed-)separator line never changes the filter or the
analyzer. -/

theorem collectRev_skip {line : List Char}
    (h : is_separator_line (trimL line) = true) :
    ∀ (x y : List (List Char)) (n : Nat),
      collectRev (x ++ line :: y) n = collectRev (x ++ y) n := by
  intro x
  induction x with
  | nil =>
    intro y n
    cases n with
    | zero => simp [collectRev]
    | succ m =>
      by_cases h1 : (trimL line).isEmpty
      · simp [collectRev, h1]
      · simp [collectRev, h1, h]
  | cons a x ih =>
    intro y n
    cases n with
    | zero => simp [collectRev]
    | succ m =>
      by_cases h1 : (trimL a).isEmpty
      · simp [collectRev, h1, ih]
      · by_cases h2 : is_separator_line (trimL a)
        · simp [collectRev, h1, h2, ih]
        · simp [collectRev, h1, h2, ih]

theorem promptLoop_skip {line : List Char}
    (h : is_separator_line (trimL line) = true) :
    ∀ (x y : List (List Char)),
      promptLoop (x ++ line :: y) = promptLoop (x ++ y) := by
  intro x
  induction x with
  | nil =>
    intro y
    by_cases h1 : (trimL line).isEmpty
    · simp [promptLoop, h1]
    · simp [promptLoop, h1, h]
  | cons a x ih =>
    intro y
    by_cases h1 : (trimL a).isEmpty
    · simp [promptLoop, h1, ih]
    · by_cases h2 : is_separator_line (trimL a)
      · simp [promptLoop, h1, h2, ih]
      · by_cases h3 : (containsSubstring (trimL a) "? for shortcuts".data ||
            containsSubstring (trimL a) "ctrl+".data ||
            containsSubstring (trimL a) "shift+".data ||
            file_changes_pattern_matches (trimL a)) = true
        · simp [promptLoop, h1, h2, h3, ih]
        · simp only [Bool.or_eq_true] at h3
          push_neg at h3
          simp [promptLoop, h1, h2, h3.1, h3.2]

/-! Small algebraic facts about the smart constructors, and the behaviour of
the idle-fallback pattern on whitespace. -/

theorem catS_eps_left (r : Re) : Re.catS Re.eps r = r := by cases r <;> rfl

theorem altS_void_right (r : Re) : Re.altS r Re.void = r := by cases r <;> rfl

theorem idle_deriv_prompt : Re.deriv idle_pattern '❯' = Re.eps := by rfl

theorem idle_deriv_ws {c : Char} (hc : isWsChar c = true) :
    Re.deriv idle_pattern c = idle_pattern := by
  have hne : (c == '❯') = false := by
    rcases Bool.eq_false_or_eq_true (c == '❯') with h | h
    · have hce : c = '❯' := by simpa using h
      subst hce
      simp [isWsChar] at hc
    · exact h
  have h1 : Re.deriv (Re.pred isWsChar) c = Re.eps := by simp [Re.deriv, hc]
  have h2 : Re.deriv (Re.chr '❯') c = Re.void := by simp [Re.deriv, Re.chr, hne]
  show Re.altS
      (Re.catS (Re.catS (Re.deriv (Re.pred isWsChar) c) (Re.star (Re.pred isWsChar)))
        (Re.chr '❯'))
      (Re.deriv (Re.chr '❯') c) = idle_pattern
  rw [h1, h2, catS_eps_left, altS_void_right]
  rfl

theorem idle_prefixMatch_ws (rest : List Char) :
    ∀ pre : List Char, pre.all isWsChar = true →
      existsPrefixMatch idle_pattern (pre ++ '❯' :: rest) = true := by
  intro pre
  induction pre with
  | nil =>
    intro _
    show existsPrefixMatch idle_pattern ('❯' :: rest) = true
    simp only [existsPrefixMatch, idle_deriv_prompt, Bool.or_eq_true]
    exact Or.inr (existsPrefixMatch_of_nullable (r := Re.eps) rfl rest)
  | cons c pre ih =>
    intro hall
    simp only [List.all_cons, Bool.and_eq_true] at hall
    simp only [List.cons_append, existsPrefixMatch, Bool.or_eq_true]
    refine Or.inr ?_
    rw [idle_deriv_ws hall.1]
    exact ih hall.2

/-- Evaluation of the `❯`-prefixed exact-match loop over the waiting
catalogue: only "❯ Yes" and "❯ No" start with the prompt symbol. -/
theorem waiting_any_eval (t : List Char) :
    (WAITING_PATTERNS.any fun p => startsWithL p ['❯'] && t == p)
      = ((t == ("❯ Yes").data) || (t == ("❯ No").data)) := by
  simp [WAITING_PATTERNS, startsWithL]

/-! Branch lemmas for `detect_state`. -/

theorem anyWorking_false_parts {s : List Char}
    (h : anyWorkingMatches s = false) :
    running_pattern_matches s = false ∧
    running_pattern_time_first_matches s = false ∧
    running_fallback_pattern_matches s = false ∧
    esc_to_interrupt_end_matches s = false ∧
    running_generic_pattern_matches s = false := by
  simp only [anyWorkingMatches, Bool.or_eq_false_iff] at h
  exact ⟨h.1.1.1.1, h.1.1.1.2, h.1.1.2, h.1.2, h.2⟩

theorem detect_working_of_running {content : List Char}
    (h : running_pattern_matches (combinedOf content) = true) :
    detect_state content = ClaudeState.Working := by
  simp [detect_state, h]

theorem detect_idle_of_prompt {content : List Char}
    (hw : anyWorkingMatches (combinedOf content) = false)
    (hp : is_claude_prompt_line (captureLines content) = true) :
    detect_state content = ClaudeState.Idle := by
  obtain ⟨h1, h2, h3, h4, h5⟩ := anyWorking_false_parts hw
  simp [detect_state, h1, h2, h3, h4, h5, hp]

theorem detect_waiting_of_contains {content : List Char}
    (hw : anyWorkingMatches (combinedOf content) = false)
    (hp : is_claude_prompt_line (captureLines content) = false)
    (hc : (WAITING_PATTERNS.any
      fun p => containsSubstring (combinedOf content) p) = true) :
    detect_state content = ClaudeState.WaitingForApproval := by
  obtain ⟨h1, h2, h3, h4, h5⟩ := anyWorking_false_parts hw
  simp [detect_state, h1, h2, h3, h4, h5, hp, hc]

theorem detect_waiting_of_selection {content : List Char}
    (hw : anyWorkingMatches (combinedOf content) = false)
    (hp : is_claude_prompt_line (captureLines content) = false)
    (hsel : selection_menu_pattern_matches (combinedOf content) = true) :
    detect_state content = ClaudeState.WaitingForApproval := by
  obtain ⟨h1, h2, h3, h4, h5⟩ := anyWorking_false_parts hw
  rcases Bool.eq_false_or_eq_true
      (WAITING_PATTERNS.any fun p => containsSubstring (combinedOf content) p)
    with hc | hc
  · simp [detect_state, h1, h2, h3, h4, h5, hp, hc]
  · rcases Bool.eq_false_or_eq_true
        (interview_pattern_matches (combinedOf content)) with hi | hi
    · simp [detect_state, h1, h2, h3, h4, h5, hp, hc, hi]
    · simp [detect_state, h1, h2, h3, h4, h5, hp, hc, hi, hsel]

theorem detect_idle_default {content : List Char}
    (h : anyRuleMatches content = false) :
    detect_state content = ClaudeState.Idle := by
  simp only [anyRuleMatches, Bool.or_eq_false_iff] at h
  obtain ⟨⟨⟨⟨⟨hw, hp⟩, hc⟩, hi⟩, hsel⟩, hid⟩ := h
  obtain ⟨h1, h2, h3, h4, h5⟩ := anyWorking_false_parts hw
  simp [detect_state, h1, h2, h3, h4, h5, hp, hc, hi, hsel, hid]

/-! Claim theorems. -/

/-- C3: for every input string, `detect_state` returns exactly one of
`Working`, `WaitingForApproval` or `Idle`; the reserved variants
`WaitingForAnswer` and `NotRunning` are never produced and there is no
error outcome. -/
theorem C3_totality (content : String) :
    detect_state content.data = ClaudeState.Working ∨
    detect_state content.data = ClaudeState.WaitingForApproval ∨
    detect_state content.data = ClaudeState.Idle := by
  unfold detect_state
  repeat' split
  all_goals simp

/-- C8: `detect_state` is deterministic and pure — equal capture strings
always classify to the same state (the pattern registry is constant and the
classifier has no per-call mutable state in this model). -/
theorem C8_deterministic (s t : String) (h : s = t) :
    detect_state s.data = detect_state t.data := by rw [h]

/-- C8 witness: a concrete repeated classification agrees with itself. -/
theorem C8_deterministic_witness :
    ("❯" : String) = "❯" ∧ detect_state ("❯").data = detect_state ("❯").data :=
  ⟨rfl, C8_deterministic "❯" "❯" rfl⟩

/-- C2: whenever none of the five Working rules matches the joined window
text and the prompt-line analyzer accepts the last substantive line,
`detect_state` returns `Idle` — the idle-prompt check runs strictly before
every waiting check, whatever else the window contains. -/
theorem C2_idle_prompt_precedes_waiting (content : String)
    (hw : anyWorkingMatches (combinedOf content.data) = false)
    (hp : is_claude_prompt_line (captureLines content.data) = true) :
    detect_state content.data = ClaudeState.Idle :=
  detect_idle_of_prompt hw hp

/-- C2 witness: a capture whose window contains the waiting phrase
"Do you trust" but whose tail is a live `❯` prompt classifies as `Idle`. -/
theorem C2_idle_prompt_precedes_waiting_witness :
    anyWorkingMatches (combinedOf ("Do you trust\n❯").data) = false ∧
    is_claude_prompt_line (captureLines ("Do you trust\n❯").data) = true ∧
    detect_state ("Do you trust\n❯").data = ClaudeState.Idle :=
  ⟨by decide, by decide,
   C2_idle_prompt_precedes_waiting "Do you trust\n❯" (by decide) (by decide)⟩

/-- C7: when no classification rule at all matches, `detect_state` returns
`Idle` — and the empty capture is such an input (see the witness). -/
theorem C7_default_idle (content : String)
    (h : anyRuleMatches content.data = false) :
    detect_state content.data = ClaudeState.Idle :=
  detect_idle_default h

/-- C7 witness: the empty string matches no rule and classifies as `Idle`. -/
theorem C7_default_idle_witness :
    anyRuleMatches ("").data = false ∧
    detect_state ("").data = ClaudeState.Idle :=
  ⟨by decide, C7_default_idle "" (by decide)⟩

/-- C4 counterexample: the line " ─" is neither whitespace-only nor a
separator under the claim's untrimmed separator test, so the claimed filter
keeps it, but `last_non_empty_lines` trims first and drops it. -/
theorem C4_counterexample :
    last_non_empty_lines [(" ─").data] LAST_LINES_COUNT ≠
      lineFilterSpecC4 [(" ─").data] LAST_LINES_COUNT := by decide

/-- C4 amended: the Line Filter returns the last at-most-`n` lines, in
original order, whose whitespace-trimmed form is neither empty nor a
separator — the separator test is applied to the trimmed line, not to the
raw line. -/
theorem C4_line_filter_amended (lines : List (List Char)) (n : Nat) :
    last_non_empty_lines lines n = takeLastN n (lines.filter keepLine) :=
  last_non_empty_lines_eq_filter lines n

/-- C9: a line whose whitespace-trimmed form is a separator (for example
"  ─── ", whitespace around box-drawing characters) is skipped by both the
Line Filter and the Prompt-Line Analyzer, wherever it occurs. -/
theorem C9_trimmed_separator_skipped (l1 l2 : List (List Char))
    (line : List Char) (n : Nat)
    (h : is_separator_line (trimL line) = true) :
    last_non_empty_lines (l1 ++ line :: l2) n =
      last_non_empty_lines (l1 ++ l2) n ∧
    is_claude_prompt_line (l1 ++ line :: l2) =
      is_claude_prompt_line (l1 ++ l2) := by
  have hrev : (l1 ++ line :: l2).reverse = l2.reverse ++ line :: l1.reverse := by
    simp
  have hrev2 : (l1 ++ l2).reverse = l2.reverse ++ l1.reverse := by simp
  constructor
  · unfold last_non_empty_lines
    rw [hrev, collectRev_skip h, hrev2]
  · unfold is_claude_prompt_line
    rw [hrev, promptLoop_skip h, hrev2]

/-- C9 witness: skipping the concrete line "  ─── " between "a" and "❯". -/
theorem C9_trimmed_separator_skipped_witness :
    is_separator_line (trimL (("  ─── ").data)) = true ∧
    (last_non_empty_lines ([("a").data] ++ ("  ─── ").data :: [("❯").data]) 30 =
       last_non_empty_lines ([("a").data] ++ [("❯").data]) 30 ∧
     is_claude_prompt_line ([("a").data] ++ ("  ─── ").data :: [("❯").data]) =
       is_claude_prompt_line ([("a").data] ++ [("❯").data])) :=
  ⟨by decide,
   C9_trimmed_separator_skipped [("a").data] [("❯").data] (("  ─── ").data) 30
     (by decide)⟩

/-- C10: leading whitespace does not defeat prompt detection — if the last
substantive line trims to a `❯`-led line that is neither a numbered menu
nor exactly "❯ Yes"/"❯ No", the analyzer accepts it and, absent a Working
match, `detect_state` returns `Idle`; moreover the idle fallback pattern
`(?m)^\s*❯` accepts a line-start `❯` behind any run of whitespace. -/
theorem C10_leading_whitespace_prompt :
    (∀ (content : String) (L : List Char),
      lastSubstantive (captureLines content.data) = some L →
      startsWithL (trimL L) ['❯'] = true →
      selection_menu_pattern_matches (trimL L) = false →
      trimL L ≠ ("❯ Yes").data →
      trimL L ≠ ("❯ No").data →
      anyWorkingMatches (combinedOf content.data) = false →
      is_claude_prompt_line (captureLines content.data) = true ∧
      detect_state content.data = ClaudeState.Idle) ∧
    (∀ pre rest : List Char, pre.all isWsChar = true →
      idle_pattern_matches (pre ++ '❯' :: rest) = true) := by
  constructor
  · intro content L h1 hs hsel hy hn hw
    have hp : is_claude_prompt_line (captureLines content.data) = true := by
      rw [is_claude_prompt_line_eq_judge, h1]
      show promptJudge (trimL L) = true
      unfold promptJudge
      rw [waiting_any_eval]
      have hy' : (trimL L == ("❯ Yes").data) = false := by simpa using hy
      have hn' : (trimL L == ("❯ No").data) = false := by simpa using hn
      simp [hs, hsel, hy', hn']
    exact ⟨hp, detect_idle_of_prompt hw hp⟩
  · intro pre rest hall
    unfold idle_pattern_matches searchLineStarts
    simp only [Bool.or_eq_true]
    exact Or.inl (idle_prefixMatch_ws rest pre hall)

/-- C10 witness: the whitespace-indented prompt line "  ❯" at the tail of a
capture is recognized and classifies as `Idle`; the idle pattern accepts
"  ❯" itself. -/
theorem C10_leading_whitespace_prompt_witness :
    (startsWithL (trimL (("  ❯").data)) ['❯'] = true ∧
     (is_claude_prompt_line (captureLines ("hello\n  ❯").data) = true ∧
      detect_state ("hello\n  ❯").data = ClaudeState.Idle)) ∧
    idle_pattern_matches (("  ").data ++ '❯' :: []) = true :=
  ⟨⟨by decide,
    C10_leading_whitespace_prompt.1 "hello\n  ❯" (("  ❯").data)
      (by decide) (by decide) (by decide) (by decide) (by decide) (by decide)⟩,
   C10_leading_whitespace_prompt.2 (("  ").data) [] (by decide)⟩

set_option maxRecDepth 1000000

/-- C1: on the capture of the repository's own regression test
`idle_with_vim_mode_and_stale_waiting_pattern_in_history` (live "❯ " prompt,
model/context status line "  [Opus 4.6] Context: 0%" below it, stale
"Proceed?" in history), the analyzer treats the status line as the last
substantive line — it is not in the footer skip list — so the prompt check
fails and the stale phrase wins: the code returns `WaitingForApproval`
though its test (and the claim) require `Idle`. -/
theorem C1_stale_waiting_code_behavior :
    lastSubstantive (captureLines c1FailingInput.data) =
      some (("  [Opus 4.6] Context: 0%").data) ∧
    detect_state c1FailingInput.data = ClaudeState.WaitingForApproval :=
  ⟨by decide, by decide⟩

/-- C5 counterexample: a capture containing the Clauding status line at line
start, followed by thirty further lines, classifies as `Idle` — the line has
left the 30-line meaningful window, so the claim fails as stated. -/
theorem C5_counterexample :
    claudingLine.data ∈ captureLines c5CounterInput.data ∧
    detect_state c5CounterInput.data = ClaudeState.Idle :=
  ⟨by decide, by decide⟩

/-- C5 amended: for every capture whose meaningful window still contains the
line "✢ Clauding… (esc to interrupt · 1m 45s · ↓ 1.2k tokens)",
rule 1 (trailing-timer form) matches the window text and `detect_state`
returns `Working`. -/
theorem C5_clauding_in_window_working (content : String)
    (h : claudingLine.data ∈ windowOf content.data) :
    running_pattern_matches (combinedOf content.data) = true ∧
    detect_state content.data = ClaudeState.Working := by
  have hL : existsPrefixMatch running_pattern claudingLine.data = true := by
    decide
  obtain ⟨u, v, hj, hu⟩ := joinNL_mem_decomp h
  have hpre : existsPrefixMatch running_pattern (claudingLine.data ++ v) = true :=
    existsPrefixMatch_append v _ _ hL
  have hm : running_pattern_matches (combinedOf content.data) = true := by
    unfold running_pattern_matches combinedOf
    rw [hj]
    exact searchLineStarts_at u _ hu hpre
  exact ⟨hm, detect_working_of_running hm⟩

/-- C5 witness: the capture consisting of the Clauding line alone. -/
theorem C5_clauding_in_window_working_witness :
    claudingLine.data ∈ windowOf claudingLine.data ∧
    (running_pattern_matches (combinedOf claudingLine.data) = true ∧
     detect_state claudingLine.data = ClaudeState.Working) :=
  ⟨by decide, C5_clauding_in_window_working claudingLine (by decide)⟩

/-- C6 counterexample: a capture whose last substantive line is exactly
"❯ No" (the thirty "ctrl+" footer lines after it are skipped by the
analyzer), with no Working rule matching the window — yet `detect_state`
returns `Idle`, because the footer lines fill the 30-line window and push
"❯ No" out of it, so no waiting rule can see it. -/
theorem C6_counterexample :
    lastSubstantive (captureLines c6CounterInput.data) = some (("❯ No").data) ∧
    anyWorkingMatches (combinedOf c6CounterInput.data) = false ∧
    detect_state c6CounterInput.data = ClaudeState.Idle :=
  ⟨by decide, by decide, by decide⟩

/-- C6 amended: if additionally the last substantive line still lies within
the 30-line meaningful window, the claim holds — a last substantive line
that is a numbered selection menu or exactly "❯ Yes"/"❯ No" is refused by
the analyzer, and `detect_state` returns `WaitingForApproval`. -/
theorem C6_choice_dialog_waiting (content : String) (L : List Char)
    (h1 : lastSubstantive (captureLines content.data) = some L)
    (h2 : selection_menu_pattern_matches (trimL L) = true ∨
          trimL L = ("❯ Yes").data ∨ trimL L = ("❯ No").data)
    (h3 : anyWorkingMatches (combinedOf content.data) = false)
    (h4 : L ∈ windowOf content.data) :
    detect_state content.data = ClaudeState.WaitingForApproval := by
  have hp : is_claude_prompt_line (captureLines content.data) = false := by
    rw [is_claude_prompt_line_eq_judge, h1]
    show promptJudge (trimL L) = false
    rcases h2 with hsel | heq | heq
    · unfold promptJudge
      simp [hsel]
    · rw [heq]; decide
    · rw [heq]; decide
  have hinf : trimL L <:+: combinedOf content.data :=
    (trimL_infix_raw L).trans (mem_infix_joinNL h4)
  rcases h2 with hsel | heq | heq
  · have hselc : selection_menu_pattern_matches (combinedOf content.data) = true :=
      searchAnywhere_mono hinf hsel
    exact detect_waiting_of_selection h3 hp hselc
  · have hc : (WAITING_PATTERNS.any
        fun p => containsSubstring (combinedOf content.data) p) = true := by
      refine List.any_eq_true.mpr ⟨("❯ Yes").data, ?_,
        containsSubstring_mono (heq ▸ hinf)⟩
      simp [WAITING_PATTERNS]
    exact detect_waiting_of_contains h3 hp hc
  · have hc : (WAITING_PATTERNS.any
        fun p => containsSubstring (combinedOf content.data) p) = true := by
      refine List.any_eq_true.mpr ⟨("❯ No").data, ?_,
        containsSubstring_mono (heq ▸ hinf)⟩
      simp [WAITING_PATTERNS]
    exact detect_waiting_of_contains h3 hp hc

/-- C6 witness: a short capture ending in the selected choice "❯ No". -/
theorem C6_choice_dialog_waiting_witness :
    lastSubstantive (captureLines ("Do stuff\n❯ No").data) =
      some (("❯ No").data) ∧
    anyWorkingMatches (combinedOf ("Do stuff\n❯ No").data) = false ∧
    ("❯ No").data ∈ windowOf ("Do stuff\n❯ No").data ∧
    detect_state ("Do stuff\n❯ No").data = ClaudeState.WaitingForApproval :=
  ⟨by decide, by decide, by decide,
   C6_choice_dialog_waiting "Do stuff\n❯ No" (("❯ No").data)
     (by decide) (Or.inr (Or.inr (by decide))) (by decide) (by decide)⟩

end Claudeye
